import Mathlib

/-!
Shallow embedding of the MPFramework repository (MPFProcess.py, MPFTaskChecker.py,
MPFProcessHandler.py, MPFSharedMemory.py, MPFResultPublisher.py) and proofs about it.

Queues are modelled as lists observed sequentially (one consumer, no concurrent
writers unless a claim says otherwise); Python exceptions are modelled with
`Except`; a deleted instance attribute (`del self.x`) is modelled as an `Option`
field becoming `none`, since a later access raises `AttributeError`.
-/

namespace MPFramework

/-- Modelled from the spec: the Message Envelope (`MPFDataPacket`), whose source file
is not under src/ (only its callers are).  Spec: "Envelope: \x7bheader: string,
payload: opaque\x7d"; calling the packet decodes it to (header, payload); `cleanup`
releases the payload and is side-effect free for our purposes. -/
structure MPFDataPacket (α : Type) where
  header : String
  payload : α
deriving DecidableEq, Repr

/-- Decoding an envelope: `header, data = data_packet()` in the source. -/
def MPFDataPacket.call (p : MPFDataPacket α) : String × α := (p.header, p.payload)

/-- `MPFTaskChecker.EXIT_KEYWORDS` from MPFTaskChecker.py. -/
def EXIT_KEYWORDS : List String :=
  ["terminate", "terminal", "exit", "stop", "join", "close", "finish"]

/-- Python's `str.strip()` on a list of characters: remove leading and trailing
whitespace. -/
def pyStrip (l : List Char) : List Char :=
  ((l.dropWhile Char.isWhitespace).reverse.dropWhile Char.isWhitespace).reverse

/-- `MPFTaskChecker._check_for_terminal_header`: lower-case and strip the header,
and if any exit keyword occurs in it as a substring (Python `word in h`), the
observed header becomes the sentinel "STOP PROCESS"; otherwise it is unchanged. -/
def check_for_terminal_header (header : String) : String :=
  if EXIT_KEYWORDS.any
      (fun w => decide (w.data <:+: pyStrip (header.data.map Char.toLower))) then
    "STOP PROCESS"
  else header

/-- The user-supplied hooks of an `MPFProcess` subclass, acting on an abstract user
state `σ`.  A hook returning `none` models the hook raising an uncaught exception. -/
structure Hooks (σ α : Type) where
  init : σ → Option σ
  update : String → α → σ → Option σ
  step : σ → Option σ
  publish : σ → Option σ

/-- Observable events of one worker execution, in order of occurrence. -/
inductive REvent (α : Type) where
  | initHook
  | update (header : String) (data : α)
  | step
  | publish
  | releaseTaskChecker
  | releasePublisher
  | cleanupHook
deriving DecidableEq, Repr

/-- How an execution of the run-loop ended: the stop sentinel was observed, a hook
raised, or the observation fuel ran out while the loop was still running. -/
inductive RunExit where
  | stopped
  | crashed
  | fuelOut
deriving DecidableEq, Repr

/-- The `while True` loop of `MPFProcess.run`, lines 48-70 of MPFProcess.py.
Each iteration: poll the task checker (pop one packet if the input queue is
non-empty, normalizing its header); if the observed header is "STOP PROCESS",
break without calling `update`; otherwise call `update` with the observed header
and data; then call `step` and `publish`.  `fuel` bounds how many iterations we
observe.  Returns the exit kind, the hook events in order, and the unread rest of
the input queue. -/
def runLoop (hooks : Hooks σ α) :
    Nat → List (MPFDataPacket α) → σ → RunExit × List (REvent α) × List (MPFDataPacket α)
  | 0, q, _ => (.fuelOut, [], q)
  | fuel + 1, q, s =>
    match q with
    | [] =>
      match hooks.step s with
      | none => (.crashed, [.step], [])
      | some s1 =>
        match hooks.publish s1 with
        | none => (.crashed, [.step, .publish], [])
        | some s2 =>
          let r := runLoop hooks fuel [] s2
          (r.1, .step :: .publish :: r.2.1, r.2.2)
    | pkt :: rest =>
      if check_for_terminal_header pkt.header = "STOP PROCESS" then
        (.stopped, [], rest)
      else
        match hooks.update (check_for_terminal_header pkt.header) pkt.payload s with
        | none => (.crashed, [.update (check_for_terminal_header pkt.header) pkt.payload], rest)
        | some s1 =>
          match hooks.step s1 with
          | none =>
            (.crashed, [.update (check_for_terminal_header pkt.header) pkt.payload, .step], rest)
          | some s2 =>
            match hooks.publish s2 with
            | none =>
              (.crashed,
                [.update (check_for_terminal_header pkt.header) pkt.payload, .step, .publish],
                rest)
            | some s3 =>
              let r := runLoop hooks fuel rest s3
              (r.1,
                .update (check_for_terminal_header pkt.header) pkt.payload
                  :: .step :: .publish :: r.2.1,
                r.2.2)

/-- The events produced by the `finally` block of `MPFProcess.run` (lines 76-91):
release the task checker, release the results publisher, then call the user
`cleanup` hook. -/
def finallyEvents : List (REvent α) :=
  [.releaseTaskChecker, .releasePublisher, .cleanupHook]

/-- `MPFProcess.run` (MPFProcess.py lines 23-91): the try block creates the task
checker and results publisher, calls `init`, then enters the loop; `except
Exception` catches any hook fault and logs it; the `finally` block releases the
task checker and publisher and calls the user `cleanup` hook.  When the fuel runs
out the loop is still running, so the `finally` block has not executed yet. -/
def mpfRun (hooks : Hooks σ α) (fuel : Nat) (q : List (MPFDataPacket α)) (s : σ) :
    RunExit × List (REvent α) × List (MPFDataPacket α) :=
  match hooks.init s with
  | none => (.crashed, .initHook :: finallyEvents, q)
  | some s1 =>
    let r := runLoop hooks fuel q s1
    match r.1 with
    | .fuelOut => (.fuelOut, .initHook :: r.2.1, r.2.2)
    | .stopped => (.stopped, .initHook :: (r.2.1 ++ finallyEvents), r.2.2)
    | .crashed => (.crashed, .initHook :: (r.2.1 ++ finallyEvents), r.2.2)

/-- Python exception kinds that the embedded code can raise. -/
inductive PyErr where
  | attributeError
  | nameError
  | valueError
deriving DecidableEq, Repr

/-- State of an `MPFProcessHandler` (MPFProcessHandler.py).
`process = none` models `del self._process` having run (a later access raises
`AttributeError`); `process = some none` models `self._process is None` (never
set up); `process = some (some b)` models a spawned worker whose `is_alive()`
returns `b`.  The queues are likewise `none` once `del`eted.  `inputCap` is the
input queue's `maxsize`. -/
structure Handler (α : Type) where
  terminating : Bool
  process : Option (Option Bool)
  inputQueue : Option (List (MPFDataPacket α))
  outputQueue : Option (List (MPFDataPacket α))
  inputCap : Nat
deriving DecidableEq, Repr

/-- Behaviour of one `self._output_queue.get(...)` attempt inside the `get_all`
drain loop: it can yield the next item, spuriously raise `queue.Empty` although
`qsize() > 0` (the transient race the source comments on), or raise some other
exception (caught by the outer `except Exception`). -/
inductive QB where
  | succeed
  | raiseEmpty
  | raiseOther
deriving DecidableEq, Repr

/-- The drain loop of `MPFProcessHandler.get_all` (lines 139-175): while
`qsize() > 0`, try to pop an item and append its decoded pair; on `queue.Empty`
increment `failCount` and give up after 10 consecutive failures; any other
exception ends the loop (the `finally: return results` swallows it).  The oracle
lists the behaviour of the successive `get` attempts; once exhausted, attempts
succeed (the sequential, race-free case).  Returns the collected pairs in order
and what is left on the queue. -/
def drainAux : List QB → List (MPFDataPacket α) → Nat → List (String × α) →
    List (String × α) × List (MPFDataPacket α)
  | _, [], _, acc => (acc.reverse, [])
  | [], pkt :: rest, fc, acc => drainAux [] rest fc (pkt.call :: acc)
  | .succeed :: o, pkt :: rest, _, acc => drainAux o rest 0 (pkt.call :: acc)
  | .raiseEmpty :: o, pkt :: rest, fc, acc =>
    if fc + 1 ≥ 10 then (acc.reverse, pkt :: rest)
    else drainAux o (pkt :: rest) (fc + 1) acc
  | .raiseOther :: _, pkt :: rest, _, acc => (acc.reverse, pkt :: rest)
termination_by o q _ _ => o.length + q.length

/-- `MPFProcessHandler.is_alive` (lines 182-190): `False` if `self._process is
None`, otherwise the process's own liveness; accessing the attribute after
`close()` deleted it raises `AttributeError`. -/
def is_alive (h : Handler α) : Except PyErr Bool :=
  match h.process with
  | none => .error .attributeError
  | some none => .ok false
  | some (some b) => .ok b

/-- `MPFProcessHandler.close` (lines 192-220).  Sets `_terminating`, runs
`_terminate_process` (which reads `self._process.name`, puts a terminate packet
on the input queue — `EXIT_KEYWORDS[0]` with the process name as payload, stood
for by `default` — and joins/terminates until the worker is dead), drains the
residual output via `get_all(cleaning_up=True)`, and deletes the two queues and
the process reference.  The nested `get_all` call's status gate is inlined at its
determined value: `_terminating` is already `True` there, so `_check_status`
returns `True` and `True and not cleaning_up` is `False`.  `o` is the drain
oracle for the residual `get_all`. -/
def close (o : List QB) [Inhabited α] (h : Handler α) : Except PyErr (Handler α) :=
  let h0 : Handler α := { h with terminating := true }
  match h0.process with
  | none => .error .attributeError
  | some none => .error .attributeError
  | some (some _) =>
    match h0.inputQueue with
    | none => .error .attributeError
    | some inq =>
      let h1 : Handler α :=
        { h0 with
          inputQueue := some (inq ++ [⟨EXIT_KEYWORDS.headD "", default⟩])
          process := some (some false) }
      match h1.outputQueue with
      | none => .error .attributeError
      | some outq =>
        let h2 : Handler α :=
          if outq.isEmpty then h1
          else { h1 with outputQueue := some (drainAux o outq 0 []).2 }
        .ok { h2 with inputQueue := none, outputQueue := none, process := none }

/-- `MPFProcessHandler._check_status` (lines 228-240): short-circuit `True` when
terminating; otherwise, if the worker is found dead, log a critical line (which
reads `self._process.name`, raising `AttributeError` when `_process` is `None`)
and self-heal by calling `close()`, then return `True`; else `False`. -/
def check_status (o : List QB) [Inhabited α] (h : Handler α) :
    Except PyErr (Bool × Handler α) :=
  if h.terminating then .ok (true, h)
  else
    match is_alive h with
    | .error e => .error e
    | .ok true => .ok (false, h)
    | .ok false =>
      match h.process with
      | some none => .error .attributeError
      | _ =>
        match close o h with
        | .error e => .error e
        | .ok h1 => .ok (true, h1)

/-- `MPFProcessHandler.put` (lines 68-94): no-op when the status gate returns
`True`; otherwise enqueue a packet if the input queue is not full, or log a
"queue is full" line (which reads `self._process.name`) and drop the message. -/
def put (o : List QB) [Inhabited α] (h : Handler α) (header : String) (d : α) :
    Except PyErr (Handler α) :=
  match check_status o h with
  | .error e => .error e
  | .ok (st, h1) =>
    if st then .ok h1
    else
      match h1.inputQueue with
      | none => .error .attributeError
      | some q =>
        if q.length < h1.inputCap then
          .ok { h1 with inputQueue := some (q ++ [⟨header, d⟩]) }
        else
          match h1.process with
          | some (some _) => .ok h1
          | _ => .error .attributeError

/-- `MPFProcessHandler.get` (lines 96-113).  Note the source line
`if self._check_status() and not cleaning_up:`: `cleaning_up` is not a parameter
of `get`, so whenever `_check_status()` returns `True` the right operand is
evaluated and raises `NameError`; when it returns `False` the `and`
short-circuits and the bug is invisible. -/
def get (o : List QB) [Inhabited α] (h : Handler α) :
    Except PyErr (Option (String × α) × Handler α) :=
  match check_status o h with
  | .error e => .error e
  | .ok (st, h1) =>
    if st then .error .nameError
    else
      match h1.outputQueue with
      | none => .error .attributeError
      | some q =>
        match q with
        | [] => .ok (none, h1)
        | pkt :: rest => .ok (some pkt.call, { h1 with outputQueue := some rest })

/-- `MPFProcessHandler.get_all` (lines 115-180): return `None` when the status
gate fires (unless `cleaning_up`) or when the output queue reports empty;
otherwise drain the queue (the drain section is wrapped in
`try/except/finally: return results`, so it never raises). -/
def get_all (o : List QB) [Inhabited α] (h : Handler α) (cleaning_up : Bool) :
    Except PyErr (Option (List (String × α)) × Handler α) :=
  match check_status o h with
  | .error e => .error e
  | .ok (st, h1) =>
    if st && !cleaning_up then .ok (none, h1)
    else
      match h1.outputQueue with
      | none => .error .attributeError
      | some q =>
        if q.isEmpty then .ok (none, h1)
        else
          let r := drainAux o q 0 []
          .ok (some r.1, { h1 with outputQueue := some r.2 })

/-- `true` iff an embedded call returned normally (no Python exception). -/
def exceptOk : Except PyErr β → Bool
  | .ok _ => true
  | .error _ => false

/-- The list of pairs a `get_all` call handed back, or `[]` when it returned
`None` or raised. -/
def returnedPairs : Except PyErr (Option (List (String × α)) × Handler α) → List (String × α)
  | .ok (some l, _) => l
  | _ => []

/-- `true` iff a `get_all` call returned an actual Python list (rather than
`None` or an exception). -/
def getAllRetList : Except PyErr (Option (List (String × α)) × Handler α) → Bool
  | .ok (some _, _) => true
  | _ => false

/-- Classifier for the user cleanup event. -/
def isCleanupEv : REvent α → Bool
  | .cleanupHook => true
  | _ => false

/-- Classifier for the two resource-release events of the finally block. -/
def isReleaseEv : REvent α → Bool
  | .releaseTaskChecker => true
  | .releasePublisher => true
  | _ => false

/-- The four supported element kinds of `MPFSharedMemory` (its class attributes
`MPF_FLOAT32 = ctypes.c_float`, `MPF_FLOAT64 = ctypes.c_double`,
`MPF_INT32 = ctypes.c_int32`, `MPF_INT64 = ctypes.c_int64`). -/
inductive MPFDtype where
  | float32
  | float64
  | int32
  | int64
deriving DecidableEq, Repr

/-- `MPFSharedMemory.MPF_FLOAT32`. -/
def MPF_FLOAT32 : MPFDtype := .float32

/-- `MPFSharedMemory.MPF_FLOAT64`. -/
def MPF_FLOAT64 : MPFDtype := .float64

/-- `MPFSharedMemory.MPF_INT32`. -/
def MPF_INT32 : MPFDtype := .int32

/-- `MPFSharedMemory.MPF_INT64`. -/
def MPF_INT64 : MPFDtype := .int64

/-- The values `_parse_dtype` can be handed: the alias strings, the numpy type
tags, the ctypes type objects, or any other Python object (`unknownObj`), which
compares unequal to all of the listed aliases. -/
inductive DtypeCode where
  | strCode (s : String)
  | npFloat32
  | npFloat64
  | npInt32
  | npInt64
  | cFloat
  | cDouble
  | cInt32
  | cInt64
  | unknownObj (id : Nat)
deriving DecidableEq, Repr

/-- The tuple `floatCodes = ('float', 'float32', np.float32, 'f', ctypes.c_float)`. -/
def floatCodes : List DtypeCode :=
  [.strCode "float", .strCode "float32", .npFloat32, .strCode "f", .cFloat]

/-- The tuple `doubleCodes = ('double', 'float64', np.float64, 'd', ctypes.c_double)`. -/
def doubleCodes : List DtypeCode :=
  [.strCode "double", .strCode "float64", .npFloat64, .strCode "d", .cDouble]

/-- The tuple `intCodes = ('int', 'int32', np.int32, 'i', ctypes.c_int32)`. -/
def intCodes : List DtypeCode :=
  [.strCode "int", .strCode "int32", .npInt32, .strCode "i", .cInt32]

/-- The tuple `longCodes = ('long', 'int64', np.int64, 'l', ctypes.c_int64)`. -/
def longCodes : List DtypeCode :=
  [.strCode "long", .strCode "int64", .npInt64, .strCode "l", .cInt64]

/-- `MPFSharedMemoryBlock._parse_dtype` (MPFSharedMemory.py lines 120-145):
membership tests against the four alias tuples in order, defaulting to
`MPF_FLOAT32` for anything unmatched. -/
def parse_dtype (code : DtypeCode) : MPFDtype :=
  if code ∈ floatCodes then MPF_FLOAT32
  else if code ∈ doubleCodes then MPF_FLOAT64
  else if code ∈ intCodes then MPF_INT32
  else if code ∈ longCodes then MPF_INT64
  else MPF_FLOAT32

/-- numpy `itemsize` in bytes of each element kind. -/
def itemsize : MPFDtype → Nat
  | .float32 => 4
  | .float64 => 8
  | .int32 => 4
  | .int64 => 8

/-- The `w` little-endian bytes of the machine representation of an element whose
bit pattern is `x`.  Elements are modelled by their bit patterns, which is all
the byte-level reinterpretation in `get` can see. -/
def toBytes : Nat → Nat → List Nat
  | 0, _ => []
  | w + 1, x => x % 256 :: toBytes w (x / 256)

/-- Recombine little-endian bytes into a bit pattern. -/
def fromBytes : List Nat → Nat
  | [] => 0
  | b :: rest => b + 256 * fromBytes rest

/-- Split a byte list into 8-byte machine words (the elements `np.frombuffer`
produces with its default `dtype=float64`). -/
def chunks8 (bs : List Nat) : List Nat :=
  if bs.isEmpty then []
  else fromBytes (bs.take 8) :: chunks8 (bs.drop 8)
termination_by bs.length
decreasing_by
  cases bs with
  | nil => simp at *
  | cons b t => simp [List.length_drop]; omega

/-- `np.frombuffer(buffer)` with the default `dtype=float64`, as called by
`MPFSharedMemoryBlock.get`: requires the buffer's byte count to be a multiple of
8 (else `ValueError`), then reinterprets each 8-byte group as one element. -/
def np_frombuffer_f64 (bytes : List Nat) : Except PyErr (List Nat) :=
  if bytes.length % 8 = 0 then .ok (chunks8 bytes) else .error .valueError

/-- `np.copyto(dst, src)` for one-dimensional arrays: `src` must broadcast to
`dst`'s shape, i.e. have the same length or length 1; otherwise numpy raises
`ValueError: could not broadcast input array`. -/
def np_copyto (dst src : List Nat) : Except PyErr (List Nat) :=
  if src.length = dst.length then .ok src
  else if src.length = 1 then .ok (List.replicate dst.length (src.headD 0))
  else .error .valueError

/-- `MPFSharedMemoryBlock.set` (lines 100-107): `np.copyto(self._mem[start:],
data)` — the destination slice runs from `start` to the END of the buffer. -/
def block_set (mem : List Nat) (start : Nat) (data : List Nat) : Except PyErr (List Nat) :=
  match np_copyto (mem.drop start) data with
  | .error e => .error e
  | .ok tail => .ok (mem.take start ++ tail)

/-- `MPFSharedMemoryBlock.get` (lines 109-118):
`np.frombuffer(self._mem[index:index + size])` — the slice's raw bytes are
reinterpreted with frombuffer's default dtype (float64), whatever the block's
element kind `dt` is. -/
def block_get (dt : MPFDtype) (mem : List Nat) (index size : Nat) : Except PyErr (List Nat) :=
  np_frombuffer_f64 (((mem.drop index).take size).flatMap (toBytes (itemsize dt)))

/-- Attribute state of an `MPFSharedMemory` object: whether `self._memory` and
`self._manager` still exist as instance attributes (they are `del`eted by
`cleanup`). -/
structure MPFSharedMemoryState where
  memoryAttr : Bool
  managerAttr : Bool
deriving DecidableEq, Repr

/-- `MPFSharedMemory.cleanup` (MPFSharedMemory.py lines 73-88).  The try block
calls `self._memory.cleanup()` and `self._manager.shutdown()`; any `Exception`
there (e.g. the `AttributeError` from an already-deleted attribute) is caught and
logged.  The `finally` block then runs `del self._memory; del self._manager`;
`del` of a missing instance attribute raises `AttributeError`, and an exception
raised in a `finally` block propagates to the caller. -/
def sm_cleanup (s : MPFSharedMemoryState) : Except PyErr MPFSharedMemoryState :=
  if s.memoryAttr then
    if s.managerAttr then .ok { memoryAttr := false, managerAttr := false }
    else .error .attributeError
  else .error .attributeError

section InfixLemmas

/-- Reversal maps substrings to substrings. -/
theorem infix_reverse_of {w l : List Char} (h : w <:+: l) : w.reverse <:+: l.reverse := by
  obtain ⟨s, t, hst⟩ := h
  refine ⟨t.reverse, s.reverse, ?_⟩
  subst hst
  simp

/-- Dropping a leading run of characters that satisfy `p` cannot destroy an
occurrence of a nonempty substring none of whose characters satisfy `p`. -/
theorem infix_dropWhile_of_no (p : Char → Bool) {w : List Char} (hne : w ≠ [])
    (hnp : ∀ c ∈ w, p c = false) :
    ∀ {l : List Char}, w <:+: l → w <:+: l.dropWhile p := by
  intro l
  induction l with
  | nil =>
    intro h
    obtain ⟨s, t, hst⟩ := h
    rcases List.append_eq_nil.mp (List.append_eq_nil.mp hst).1 with ⟨-, hw⟩
    exact absurd hw hne
  | cons c cs ih =>
    intro h
    cases hpc : p c with
    | false => simpa [List.dropWhile_cons, hpc] using h
    | true =>
      simp only [List.dropWhile_cons, hpc, if_true]
      apply ih
      obtain ⟨s, t, hst⟩ := h
      cases s with
      | nil =>
        cases w with
        | nil => exact absurd rfl hne
        | cons a w2 =>
          simp only [List.nil_append, List.cons_append, List.cons.injEq] at hst
          have : p a = false := hnp a (List.mem_cons_self a w2)
          rw [hst.1] at this
          rw [this] at hpc
          exact absurd hpc (by simp)
      | cons a s2 =>
        simp only [List.cons_append, List.cons.injEq] at hst
        exact ⟨s2, t, hst.2⟩

/-- A nonempty, whitespace-free substring survives Python's `.strip()`. -/
theorem infix_pyStrip {w l : List Char} (hne : w ≠ [])
    (hnp : ∀ c ∈ w, c.isWhitespace = false) (h : w <:+: l) : w <:+: pyStrip l := by
  unfold pyStrip
  have h1 := infix_dropWhile_of_no Char.isWhitespace hne hnp h
  have h2 := infix_reverse_of h1
  have hne2 : w.reverse ≠ [] := by simpa using hne
  have hnp2 : ∀ c ∈ w.reverse, c.isWhitespace = false := fun c hc =>
    hnp c (List.mem_reverse.mp hc)
  have h3 := infix_dropWhile_of_no Char.isWhitespace hne2 hnp2 h2
  have h4 := infix_reverse_of h3
  simpa using h4

/-- Core of C1's first half: a header that contains an exit keyword
case-insensitively is normalized to the stop sentinel. -/
theorem check_for_terminal_header_stop (header : String)
    (hw : ∃ w ∈ EXIT_KEYWORDS, w.data <:+: header.data.map Char.toLower) :
    check_for_terminal_header header = "STOP PROCESS" := by
  obtain ⟨w, hmem, hinf⟩ := hw
  have hprop : w.data ≠ [] ∧ ∀ c ∈ w.data, c.isWhitespace = false := by
    simp only [EXIT_KEYWORDS, List.mem_cons, List.not_mem_nil, or_false] at hmem
    rcases hmem with rfl | rfl | rfl | rfl | rfl | rfl | rfl <;>
      exact ⟨by decide, by decide⟩
  have hst := infix_pyStrip hprop.1 hprop.2 hinf
  have hany : EXIT_KEYWORDS.any
      (fun w2 => decide (w2.data <:+: pyStrip (header.data.map Char.toLower))) = true := by
    rw [List.any_eq_true]
    exact ⟨w, hmem, decide_eq_true hst⟩
  simp [check_for_terminal_header, hany]

end InfixLemmas

/-- C1: an inbound envelope whose header contains an exit synonym
case-insensitively as a substring is normalized by the task checker to
"STOP PROCESS", and the run-loop, observing that sentinel at the head of the
input queue, exits with `.stopped`, invokes no hook for that message (empty
event list), and leaves the rest of the inbound data unread. -/
theorem stop_header_halts_loop {σ α : Type} (hooks : Hooks σ α) (header : String) (d : α)
    (q : List (MPFDataPacket α)) (s : σ) (fuel : Nat)
    (hw : ∃ w ∈ EXIT_KEYWORDS, w.data <:+: header.data.map Char.toLower)
    (hf : 0 < fuel) :
    check_for_terminal_header header = "STOP PROCESS" ∧
      runLoop hooks fuel (⟨header, d⟩ :: q) s = (.stopped, [], q) := by
  have hstop := check_for_terminal_header_stop header hw
  refine ⟨hstop, ?_⟩
  obtain ⟨fuel2, rfl⟩ : ∃ k, fuel = k + 1 := ⟨fuel - 1, by omega⟩
  simp [runLoop, hstop]

/-- A run-loop with hooks that never fault, for witnesses. -/
def trivHooks : Hooks Nat Nat :=
  { init := fun s => some s
    update := fun _ _ s => some s
    step := fun s => some s
    publish := fun s => some s }

/-- Witness for C1: the stop-synonym header "please close now" from the spec, at
fuel 1, with concrete hooks. -/
theorem stop_header_halts_loop_witness :
    check_for_terminal_header "please close now" = "STOP PROCESS" ∧
      runLoop trivHooks 1 [⟨"please close now", 0⟩] 0 = (.stopped, [], []) :=
  stop_header_halts_loop trivHooks "please close now" 0 [] 0 1
    ⟨"close", by decide, by decide⟩ (by decide)

/-- The run-loop itself emits only hook-invocation events, never the
resource-release or cleanup events of the `finally` block. -/
theorem runLoop_events_loop {σ α : Type} (hooks : Hooks σ α) :
    ∀ (fuel : Nat) (q : List (MPFDataPacket α)) (s : σ) (ev : REvent α),
      ev ∈ (runLoop hooks fuel q s).2.1 →
      isCleanupEv ev = false ∧ isReleaseEv ev = false := by
  intro fuel
  induction fuel with
  | zero =>
    intro q s ev h
    simp [runLoop] at h
  | succ n ih =>
    intro q s ev h
    cases q with
    | nil =>
      cases hstep : hooks.step s with
      | none =>
        simp [runLoop, hstep] at h
        subst h
        exact ⟨rfl, rfl⟩
      | some s1 =>
        cases hpub : hooks.publish s1 with
        | none =>
          simp [runLoop, hstep, hpub] at h
          rcases h with rfl | rfl <;> exact ⟨rfl, rfl⟩
        | some s2 =>
          simp only [runLoop, hstep, hpub, List.mem_cons] at h
          rcases h with rfl | rfl | hmem
          · exact ⟨rfl, rfl⟩
          · exact ⟨rfl, rfl⟩
          · exact ih [] s2 ev hmem
    | cons pkt rest =>
      by_cases hterm : check_for_terminal_header pkt.header = "STOP PROCESS"
      · simp [runLoop, hterm] at h
      · cases hupd : hooks.update (check_for_terminal_header pkt.header) pkt.payload s with
        | none =>
          simp [runLoop, hterm, hupd] at h
          subst h
          exact ⟨rfl, rfl⟩
        | some s1 =>
          cases hstep : hooks.step s1 with
          | none =>
            simp [runLoop, hterm, hupd, hstep] at h
            rcases h with rfl | rfl <;> exact ⟨rfl, rfl⟩
          | some s2 =>
            cases hpub : hooks.publish s2 with
            | none =>
              simp [runLoop, hterm, hupd, hstep, hpub] at h
              rcases h with rfl | rfl | rfl <;> exact ⟨rfl, rfl⟩
            | some s3 =>
              simp [runLoop, hterm, hupd, hstep, hpub] at h
              rcases h with rfl | rfl | rfl | hmem
              · exact ⟨rfl, rfl⟩
              · exact ⟨rfl, rfl⟩
              · exact ⟨rfl, rfl⟩
              · exact ih rest s3 ev hmem

/-- C2: whenever the worker execution exits (normal stop-sentinel exit or a
crash of any hook at any point), the event trace ends with the `finally` events
— release the task checker, release the result publisher, then the user cleanup
hook — and the cleanup hook occurs exactly once and the two releases exactly
once each in the whole trace. -/
theorem run_cleanup_exactly_once {σ α : Type} (hooks : Hooks σ α) (fuel : Nat)
    (q : List (MPFDataPacket α)) (s : σ)
    (hexit : (mpfRun hooks fuel q s).1 = .stopped ∨ (mpfRun hooks fuel q s).1 = .crashed) :
    ((mpfRun hooks fuel q s).2.1.countP (fun ev => isCleanupEv ev) = 1) ∧
    ((mpfRun hooks fuel q s).2.1.countP (fun ev => isReleaseEv ev) = 2) ∧
    ((mpfRun hooks fuel q s).2.1.drop ((mpfRun hooks fuel q s).2.1.length - 3)
      = finallyEvents) := by
  cases hinit : hooks.init s with
  | none =>
    simp [mpfRun, hinit, finallyEvents, List.countP_cons, isCleanupEv, isReleaseEv]
  | some s1 =>
    have hloop := runLoop_events_loop hooks fuel q s1
    have h0 : List.countP (fun ev => isCleanupEv ev) (runLoop hooks fuel q s1).2.1 = 0 :=
      List.countP_eq_zero.mpr (fun a ha => by simp [(hloop a ha).1])
    have h1 : List.countP (fun ev => isReleaseEv ev) (runLoop hooks fuel q s1).2.1 = 0 :=
      List.countP_eq_zero.mpr (fun a ha => by simp [(hloop a ha).2])
    have hf0 : List.countP (fun ev => isCleanupEv ev) (finallyEvents : List (REvent α)) = 1 := by
      simp [finallyEvents, List.countP_cons, isCleanupEv]
    have hf1 : List.countP (fun ev => isReleaseEv ev) (finallyEvents : List (REvent α)) = 2 := by
      simp [finallyEvents, List.countP_cons, isReleaseEv]
    have hdrop : ∀ evs : List (REvent α),
        (REvent.initHook :: (evs ++ finallyEvents)).drop
            ((REvent.initHook :: (evs ++ finallyEvents)).length - 3) = finallyEvents := by
      intro evs
      have heq : (REvent.initHook :: (evs ++ finallyEvents) : List (REvent α))
          = (REvent.initHook :: evs) ++ finallyEvents := by simp
      rw [heq]
      have hlen : ((REvent.initHook :: evs) ++ (finallyEvents : List (REvent α))).length - 3
          = (REvent.initHook :: evs).length := by
        simp [finallyEvents]
      rw [hlen]
      exact List.drop_left _ _
    cases hr : (runLoop hooks fuel q s1).1 with
    | fuelOut =>
      simp [mpfRun, hinit, hr] at hexit
    | stopped =>
      simp only [mpfRun, hinit, hr]
      refine ⟨?_, ?_, hdrop _⟩
      · rw [List.countP_cons, List.countP_append, h0, hf0]
        simp [isCleanupEv]
      · rw [List.countP_cons, List.countP_append, h1, hf1]
        simp [isReleaseEv]
    | crashed =>
      simp only [mpfRun, hinit, hr]
      refine ⟨?_, ?_, hdrop _⟩
      · rw [List.countP_cons, List.countP_append, h0, hf0]
        simp [isCleanupEv]
      · rw [List.countP_cons, List.countP_append, h1, hf1]
        simp [isReleaseEv]

/-- Hooks whose `init` raises, for the C2 witness. -/
def crashHooks : Hooks Nat Nat :=
  { init := fun _ => none
    update := fun _ _ s => some s
    step := fun s => some s
    publish := fun s => some s }

/-- Witness for C2: a concrete execution whose `init` hook crashes still ends
with release-release-cleanup, with cleanup occurring exactly once. -/
theorem run_cleanup_exactly_once_witness :
    ((mpfRun crashHooks 1 [] 0).2.1.countP (fun ev => isCleanupEv ev) = 1) ∧
    ((mpfRun crashHooks 1 [] 0).2.1.countP (fun ev => isReleaseEv ev) = 2) ∧
    ((mpfRun crashHooks 1 [] 0).2.1.drop ((mpfRun crashHooks 1 [] 0).2.1.length - 3)
      = finallyEvents) :=
  run_cleanup_exactly_once crashHooks 1 [] 0 (Or.inr rfl)

/-- With an exhausted oracle (the sequential, race-free case) the drain loop
takes every item off the queue, in order. -/
theorem drainAux_nil_oracle {α : Type} :
    ∀ (q : List (MPFDataPacket α)) (fc : Nat) (acc : List (String × α)),
      drainAux [] q fc acc = (acc.reverse ++ q.map MPFDataPacket.call, []) := by
  intro q
  induction q with
  | nil =>
    intro fc acc
    simp [drainAux]
  | cons pkt rest ih =>
    intro fc acc
    rw [show drainAux [] (pkt :: rest) fc acc = drainAux [] rest fc (pkt.call :: acc) from by
      simp [drainAux]]
    rw [ih]
    simp

/-- Whatever the oracle does, the drain loop returns some initial segment of the
queue, decoded in order, appended to the already-collected pairs, and leaves
exactly the rest on the queue. -/
theorem drainAux_take {α : Type} :
    ∀ (o : List QB) (q : List (MPFDataPacket α)) (fc : Nat) (acc : List (String × α)),
      ∃ k, drainAux o q fc acc
        = (acc.reverse ++ (q.map MPFDataPacket.call).take k, q.drop k) := by
  intro o
  induction o with
  | nil =>
    intro q fc acc
    refine ⟨q.length, ?_⟩
    rw [drainAux_nil_oracle]
    rw [List.take_of_length_le (by simp), List.drop_length]
  | cons b o2 ih =>
    intro q fc acc
    cases q with
    | nil => exact ⟨0, by simp [drainAux]⟩
    | cons pkt rest =>
      cases b with
      | succeed =>
        obtain ⟨k, hk⟩ := ih rest 0 (pkt.call :: acc)
        refine ⟨k + 1, ?_⟩
        rw [show drainAux (QB.succeed :: o2) (pkt :: rest) fc acc
            = drainAux o2 rest 0 (pkt.call :: acc) from by simp [drainAux]]
        rw [hk]
        simp
      | raiseEmpty =>
        by_cases hfc : fc + 1 ≥ 10
        · exact ⟨0, by simp [drainAux, hfc]⟩
        · obtain ⟨k, hk⟩ := ih (pkt :: rest) (fc + 1) acc
          refine ⟨k, ?_⟩
          rw [show drainAux (QB.raiseEmpty :: o2) (pkt :: rest) fc acc
              = drainAux o2 (pkt :: rest) (fc + 1) acc from by simp [drainAux, hfc]]
          exact hk
      | raiseOther => exact ⟨0, by simp [drainAux]⟩

/-- Any successful `close` leaves the handler with `_terminating = True` and the
process reference and both queue attributes deleted. -/
theorem close_ok_shape {α : Type} [Inhabited α] (o : List QB) (h h2 : Handler α)
    (hc : close o h = .ok h2) :
    h2 = { terminating := true, process := none, inputQueue := none,
           outputQueue := none, inputCap := h.inputCap } := by
  obtain ⟨ht, hp, hiq, hoq, hcap⟩ := h
  cases hp with
  | none => simp [close] at hc
  | some pb =>
    cases pb with
    | none => simp [close] at hc
    | some alive =>
      cases hiq with
      | none => simp [close] at hc
      | some inq =>
        cases hoq with
        | none => simp [close] at hc
        | some outq =>
          cases houtq : outq.isEmpty with
          | true =>
            simp [close, houtq] at hc
            rw [← hc]
          | false =>
            simp [close, houtq] at hc
            rw [← hc]

/-- Handler on which nothing has happened yet: a live worker, empty queues. -/
def hFresh : Handler Nat :=
  { terminating := false, process := some (some true), inputQueue := some [],
    outputQueue := some [], inputCap := 1000 }

/-- What `hFresh` becomes after `close()`. -/
def hClosed : Handler Nat :=
  { terminating := true, process := none, inputQueue := none,
    outputQueue := none, inputCap := 1000 }

/-- C3 counterexample: a first `close()` on a fresh handler succeeds, and a
second `close()` on the resulting handler raises `AttributeError` (from
`self._process.name` in `_terminate_process`, the worker reference having been
deleted) — so close is not fault-free on a second call. -/
theorem close_second_call_raises :
    close [] hFresh = .ok hClosed ∧ close [] hClosed = .error .attributeError :=
  ⟨rfl, rfl⟩

/-- C3 amended: a second `close()` on a handle whose first `close()` completed
raises `AttributeError` when it reaches the deleted worker reference; it does
not release the queues a second time — they were already deleted by the first
call and the second call faults before reaching any release. -/
theorem close_not_idempotent {α : Type} [Inhabited α] (o o2 : List QB) (h h2 : Handler α)
    (hc : close o h = .ok h2) :
    close o2 h2 = .error .attributeError ∧ h2.inputQueue = none ∧
      h2.outputQueue = none := by
  have hs := close_ok_shape o h h2 hc
  subst hs
  exact ⟨rfl, rfl, rfl⟩

/-- Witness for C3's amended theorem at the concrete closed handler. -/
theorem close_not_idempotent_witness :
    close [] hClosed = .error .attributeError ∧ hClosed.inputQueue = none ∧
      hClosed.outputQueue = none :=
  close_not_idempotent [] [] hFresh hClosed rfl

/-- C6 counterexample: after `close()` returns, `is_alive()` raises
`AttributeError` (the `_process` attribute was deleted), it does not return
false as the claim states. -/
theorem is_alive_after_close_raises :
    close [] hFresh = .ok hClosed ∧ is_alive hClosed = .error .attributeError :=
  ⟨rfl, rfl⟩

/-- C6 amended: after `close()` returns, a subsequent `put` or `get_all` is a
no-op that neither blocks nor raises (the terminating flag short-circuits the
status gate), but `is_alive()` raises `AttributeError` rather than returning
false. -/
theorem after_close_noop {α : Type} [Inhabited α] (o o2 : List QB) (h h2 : Handler α)
    (header : String) (d : α) (hc : close o h = .ok h2) :
    is_alive h2 = .error .attributeError ∧ put o2 h2 header d = .ok h2 ∧
      get_all o2 h2 false = .ok (none, h2) := by
  have hs := close_ok_shape o h h2 hc
  subst hs
  exact ⟨rfl, rfl, rfl⟩

/-- Witness for C6's amended theorem at the concrete closed handler. -/
theorem after_close_noop_witness :
    is_alive hClosed = .error .attributeError ∧ put [] hClosed "greet" 5 = .ok hClosed ∧
      get_all [] hClosed false = .ok (none, hClosed) :=
  after_close_noop [] [] hFresh hClosed "greet" 5 rfl

/-- Live worker, not terminating, empty output queue. -/
def hEmptyOut : Handler Nat :=
  { terminating := false, process := some (some true), inputQueue := some [],
    outputQueue := some [], inputCap := 1000 }

/-- C4 counterexample: with a live worker, a non-terminating handle, and an
empty output queue, `get_all` returns Python `None` — not a list (the claim
says it always returns the list collected so far, possibly empty). -/
theorem get_all_returns_none_not_list :
    getAllRetList (get_all [] hEmptyOut false) = false := rfl

/-- C4 amended: on a set-up handle (worker reference present, queue attributes
not deleted), a public `get_all` call never raises, whatever the queue race
oracle does; it returns `None` on the gate/empty-queue paths and otherwise an
actual list — the pairs collected so far, an initial segment of the queue in
enqueue order. -/
theorem get_all_never_raises {α : Type} [Inhabited α] (o : List QB) (h : Handler α)
    (b : Bool) (qi qo : List (MPFDataPacket α)) (hp : h.process = some (some b))
    (hi : h.inputQueue = some qi) (ho : h.outputQueue = some qo) :
    exceptOk (get_all o h false) = true ∧
      returnedPairs (get_all o h false)
        = (qo.map MPFDataPacket.call).take (returnedPairs (get_all o h false)).length := by
  cases hht : h.terminating with
  | true =>
    have hres : get_all o h false = .ok (none, h) := by
      simp [get_all, check_status, hht]
    rw [hres]
    exact ⟨rfl, rfl⟩
  | false =>
    cases b with
    | false =>
      have hres : exceptOk (get_all o h false) = true ∧
          returnedPairs (get_all o h false) = [] := by
        simp [get_all, check_status, is_alive, close, hp, hi, ho, hht, exceptOk,
          returnedPairs]
      refine ⟨hres.1, ?_⟩
      rw [hres.2]
      simp
    | true =>
      cases hqo : qo.isEmpty with
      | true =>
        have hres : get_all o h false = .ok (none, h) := by
          simp [get_all, check_status, is_alive, hp, ho, hht, hqo]
        rw [hres]
        exact ⟨rfl, rfl⟩
      | false =>
        obtain ⟨k, hk⟩ := drainAux_take o qo 0 []
        have hres : get_all o h false
            = .ok (some ((qo.map MPFDataPacket.call).take k),
                { h with outputQueue := some (qo.drop k) }) := by
          simp [get_all, check_status, is_alive, hp, ho, hht, hqo, hk]
        rw [hres]
        refine ⟨rfl, ?_⟩
        simp only [returnedPairs]
        rw [List.length_take]
        rw [List.take_eq_take]
        simp [Nat.min_assoc]

/-- Handler with a dead worker and one undrained output item. -/
def hDead : Handler Nat :=
  { terminating := false, process := some (some false), inputQueue := some [],
    outputQueue := some [⟨"r", 7⟩], inputCap := 1000 }

/-- Witness for C4's amended theorem: a dead worker, with a race oracle that
would fault the drain, still yields a non-raising `get_all`. -/
theorem get_all_never_raises_witness :
    exceptOk (get_all [QB.raiseOther] hDead false) = true ∧
      returnedPairs (get_all [QB.raiseOther] hDead false)
        = (([⟨"r", 7⟩] : List (MPFDataPacket Nat)).map MPFDataPacket.call).take
            (returnedPairs (get_all [QB.raiseOther] hDead false)).length :=
  get_all_never_raises [QB.raiseOther] hDead false [] [⟨"r", 7⟩] rfl rfl rfl

/-- C5 counterexample: at N = 0 (live worker, not terminating, empty output
queue, no concurrent writers), `get_all` returns `None` rather than a list of
exactly 0 pairs. -/
theorem get_all_zero_items_returns_none :
    get_all [] hEmptyOut false = .ok (none, hEmptyOut) := rfl

/-- C5 amended: for a handle that is not terminating and whose worker is alive,
with no concurrent writers (exhausted race oracle) and N ≥ 1 items on the output
queue, `get_all` returns exactly the N (header, payload) pairs in enqueue order
and empties the queue; for N = 0 it returns `None`. -/
theorem get_all_drains_in_order {α : Type} [Inhabited α] (h : Handler α)
    (q : List (MPFDataPacket α)) (hterm : h.terminating = false)
    (hp : h.process = some (some true)) (ho : h.outputQueue = some q)
    (hne : q ≠ []) :
    get_all [] h false
      = .ok (some (q.map MPFDataPacket.call), { h with outputQueue := some [] }) := by
  have hqo : q.isEmpty = false := by
    cases q with
    | nil => exact absurd rfl hne
    | cons a t => rfl
  have hdrain := drainAux_nil_oracle q 0 ([] : List (String × α))
  simp [get_all, check_status, is_alive, hp, ho, hterm, hqo, hdrain]

/-- Handler with two enqueued results, for the C5 witness. -/
def hTwoOut : Handler Nat :=
  { terminating := false, process := some (some true), inputQueue := some [],
    outputQueue := some [⟨"a", 1⟩, ⟨"b", 2⟩], inputCap := 1000 }

/-- Witness for C5's amended theorem: two enqueued items come back as exactly
two pairs, in enqueue order. -/
theorem get_all_drains_in_order_witness :
    get_all [] hTwoOut false
      = .ok (some (([⟨"a", 1⟩, ⟨"b", 2⟩] : List (MPFDataPacket Nat)).map MPFDataPacket.call),
          { hTwoOut with outputQueue := some [] }) :=
  get_all_drains_in_order hTwoOut [⟨"a", 1⟩, ⟨"b", 2⟩] rfl rfl rfl (by simp)

/-- Handler already terminating (e.g. after close began), queues intact. -/
def hTerminating : Handler Nat :=
  { terminating := true, process := some (some true), inputQueue := some [],
    outputQueue := some [], inputCap := 1000 }

/-- Live handler with one available output item. -/
def hLiveOne : Handler Nat :=
  { terminating := false, process := some (some true), inputQueue := some [],
    outputQueue := some [⟨"res", 3⟩], inputCap := 1000 }

/-- C7: `get` returns one decoded pair when an item is available and `None` when
the output queue is empty, but on the terminating path and on the dead-worker
path the source evaluates `not cleaning_up` where `cleaning_up` is an undefined
local name of `get`, raising `NameError` instead of being a silent no-op. -/
theorem get_gate_raises_nameError :
    get [] hTerminating = .error .nameError ∧
      get [] hDead = .error .nameError ∧
      get [] hLiveOne = .ok (some ("res", 3), { hLiveOne with outputQueue := some [] }) ∧
      get [] hEmptyOut = .ok (none, hEmptyOut) :=
  ⟨rfl, rfl, rfl, rfl⟩

/-- C8: the spec's own scenario fails on the code.  On a float32 block of
length 10, `set(0, [1.0, 2.0, 3.0])` raises `ValueError` — `np.copyto` cannot
broadcast a length-3 source into the length-10 destination slice `mem[start:]`
(the slice runs to the end of the buffer, not to `start + len(data)`).  And
`get(0, 3)` raises `ValueError` — `np.frombuffer` is called without `dtype=`,
so it decodes with float64 and three float32 elements are 12 bytes, not a
multiple of 8.  The data are the float32 bit patterns of 1.0, 2.0, 3.0. -/
theorem shared_roundtrip_fails :
    block_set (List.replicate 10 0) 0 [0x3F800000, 0x40000000, 0x40400000]
        = .error .valueError ∧
      block_get MPFDtype.float32 (List.replicate 10 0) 0 3 = .error .valueError := by
  constructor
  · rfl
  · rfl

/-- C9 counterexample: a first `cleanup()` on a fresh `MPFSharedMemory` object
succeeds and deletes `_memory` and `_manager`; the second call catches the
internal `AttributeError` in its `except` clause but then raises
`AttributeError` from `del self._memory` in the `finally` block — it does not
return normally. -/
theorem sm_cleanup_twice_raises :
    sm_cleanup { memoryAttr := true, managerAttr := true }
        = .ok { memoryAttr := false, managerAttr := false } ∧
      sm_cleanup { memoryAttr := false, managerAttr := false }
        = .error .attributeError :=
  ⟨rfl, rfl⟩

/-- C9 amended: after any successful `cleanup()`, a second `cleanup()` logs the
caught failure but raises `AttributeError` from the `finally` block's `del` of
the already-deleted attribute, rather than returning normally. -/
theorem sm_cleanup_not_reentrant (s s2 : MPFSharedMemoryState)
    (hc : sm_cleanup s = .ok s2) : sm_cleanup s2 = .error .attributeError := by
  obtain ⟨m, g⟩ := s
  cases m with
  | false => simp [sm_cleanup] at hc
  | true =>
    cases g with
    | false => simp [sm_cleanup] at hc
    | true =>
      simp only [sm_cleanup, if_true, Except.ok.injEq] at hc
      rw [← hc]
      rfl

/-- Witness for C9's amended theorem at the fresh shared-memory object. -/
theorem sm_cleanup_not_reentrant_witness :
    sm_cleanup { memoryAttr := false, managerAttr := false }
      = .error .attributeError :=
  sm_cleanup_not_reentrant { memoryAttr := true, managerAttr := true }
    { memoryAttr := false, managerAttr := false } rfl

/-- C10: `_parse_dtype` is total over the alias table — every alias in
`floatCodes`, `doubleCodes`, `intCodes`, `longCodes` maps to its corresponding
element kind, and every code outside all four tables maps to float32 without
failing. -/
theorem parse_dtype_total :
    (∀ c ∈ floatCodes, parse_dtype c = MPFDtype.float32) ∧
    (∀ c ∈ doubleCodes, parse_dtype c = MPFDtype.float64) ∧
    (∀ c ∈ intCodes, parse_dtype c = MPFDtype.int32) ∧
    (∀ c ∈ longCodes, parse_dtype c = MPFDtype.int64) ∧
    (∀ c : DtypeCode, c ∉ floatCodes → c ∉ doubleCodes → c ∉ intCodes →
      c ∉ longCodes → parse_dtype c = MPFDtype.float32) := by
  refine ⟨by decide, by decide, by decide, by decide, ?_⟩
  intro c h1 h2 h3 h4
  simp [parse_dtype, h1, h2, h3, h4, MPF_FLOAT32]

/-- Witness for C10 at an unrecognized code and at a recognized numpy tag. -/
theorem parse_dtype_total_witness :
    parse_dtype (DtypeCode.unknownObj 0) = MPFDtype.float32 ∧
      parse_dtype DtypeCode.npInt64 = MPFDtype.int64 :=
  ⟨parse_dtype_total.2.2.2.2 (DtypeCode.unknownObj 0) (by decide) (by decide)
      (by decide) (by decide),
    parse_dtype_total.2.2.2.1 DtypeCode.npInt64 (by decide)⟩

end MPFramework

